import Mathlib

/-!
Shallow embedding of the non-interactive CLI turn-loop driver
(`packages/cli/src/nonInteractiveCli.ts`) and of the startup-warning
checks (`packages/cli/src/utils/userStartupWarnings.ts`).

JavaScript truthiness is modelled explicitly: an optional string is
truthy when present and non-empty; objects are always truthy; absent
values are falsy.  Wall-clock reads (`Date.now()`,
`toLocaleTimeString()`) and the abort signal are modelled as external
inputs indexed by counters threaded through the run state.
-/

namespace CliModel

/-- A JavaScript value as seen by `formatToolArgs`: the code only
distinguishes strings, non-null objects (rendered via
`JSON.stringify`, modelled by the stringified text) and all other
primitives (rendered via template interpolation, modelled by the
rendered text). -/
inductive JsValue where
  | str (s : String)
  | obj (stringified : String)
  | prim (rendered : String)
deriving DecidableEq, Repr

/-- A `Record<string, unknown>` argument mapping, in iteration order. -/
abbrev ArgsMap := List (String × JsValue)

/-- A model-content `Part` as the driver sees it: an optional `thought`
marker (absent = `false`) and an optional `text` field. -/
structure RPart where
  thought : Bool := false
  text : Option String := none
deriving DecidableEq, Repr

/-- Truthiness of an optional string field (`undefined` and `""` are falsy). -/
def textTruthy : Option String → Bool
  | none => false
  | some s => s ≠ ""

/-- A `FunctionCall` from the model: optional id, name, optional args. -/
structure FunctionCall where
  id : Option String := none
  name : String
  args : Option ArgsMap := none
deriving DecidableEq, Repr

/-- `candidate.content`: an optional parts list. -/
structure CandContent where
  parts : Option (List RPart)
deriving DecidableEq, Repr

/-- One candidate completion of a streamed response. -/
structure Candidate where
  content : Option CandContent
deriving DecidableEq, Repr

/-- One streamed `GenerateContentResponse` chunk. -/
structure GenResponse where
  candidates : Option (List Candidate)
  functionCalls : Option (List FunctionCall)
deriving DecidableEq, Repr

/-- `getResponseText`: extract displayable text from one streamed chunk.
Uses only the first candidate; if its first part is a thought, returns
`none`; otherwise concatenates the `text` of every part whose `text`
field is truthy. -/
def getResponseText (response : GenResponse) : Option String :=
  match response.candidates with
  | some (candidate :: _) =>
    match candidate.content with
    | some content =>
      match content.parts with
      | some (thoughtPart :: restParts) =>
        if thoughtPart.thought then
          none
        else
          some (String.join
            (((thoughtPart :: restParts).filter fun p => textTruthy p.text).map
              fun p => p.text.getD ""))
      | some [] => none
      | none => none
    | none => none
  | some [] => none
  | none => none

/-- Rendering of one `key: value` entry in `formatToolArgs`. -/
def renderArg : String × JsValue → String
  | (k, .str s) => k ++ ": \"" ++ s ++ "\""
  | (k, .obj j) => k ++ ": " ++ j
  | (k, .prim r) => k ++ ": " ++ r

/-- `formatToolArgs`: render a tool's argument mapping for display. -/
def formatToolArgs (args : ArgsMap) : String :=
  if args.isEmpty then
    "(no arguments)"
  else
    "(" ++ String.intercalate ", " (args.map renderArg) ++ ")"

/-- The `ToolResultDisplay` union: a string, an object carrying a
`fileDiff` key, or some other (truthy) object. -/
inductive ToolResultDisplay where
  | str (s : String)
  | fileDiffObj (fileName fileDiff : String)
  | otherObj
deriving DecidableEq, Repr

/-- JavaScript `String.prototype.trim`: drop leading and trailing
whitespace (defined over the character list so it is kernel-computable). -/
def jsTrim (s : String) : String :=
  ⟨((s.data.dropWhile Char.isWhitespace).reverse.dropWhile Char.isWhitespace).reverse⟩

/-- Lifecycle status passed to `displayToolCallInfo`; `unknown` stands
for any value outside the declared union (the switch's default case). -/
inductive Status where
  | start
  | success
  | error
  | unknown (s : String)
deriving DecidableEq, Repr

/-- `displayToolCallInfo`: the sequence of `process.stdout.write` calls
performed for one lifecycle event, given the already-read wall-clock
timestamp string. -/
def displayToolCallInfo (timestamp toolName : String) (args : ArgsMap)
    (status : Status) (resultDisplay : Option ToolResultDisplay)
    (errorMessage : Option String) : List String :=
  let argsStr := formatToolArgs args
  match status with
  | .start =>
    ["\n[" ++ timestamp ++ "] 🔧 Executing tool: " ++ toolName ++ " " ++ argsStr ++ "\n"]
  | .success =>
    match resultDisplay with
    | some (.str s) =>
      if s ≠ "" then
        if jsTrim s ≠ "" then
          ["[" ++ timestamp ++ "] ✅ Tool " ++ toolName ++ " completed successfully\n",
           "📋 Result:\n" ++ s ++ "\n"]
        else
          ["[" ++ timestamp ++ "] ✅ Tool " ++ toolName ++ " completed successfully (no output)\n"]
      else
        ["[" ++ timestamp ++ "] ✅ Tool " ++ toolName ++ " completed successfully (no output)\n"]
    | some (.fileDiffObj fileName fileDiff) =>
      ["[" ++ timestamp ++ "] ✅ Tool " ++ toolName ++ " completed successfully\n",
       "📋 File: " ++ fileName ++ "\n",
       "📋 Diff:\n" ++ fileDiff ++ "\n"]
    | some .otherObj =>
      ["[" ++ timestamp ++ "] ✅ Tool " ++ toolName ++ " completed successfully (no output)\n"]
    | none =>
      ["[" ++ timestamp ++ "] ✅ Tool " ++ toolName ++ " completed successfully (no output)\n"]
  | .error =>
    ["[" ++ timestamp ++ "] ❌ Tool " ++ toolName ++ " failed: " ++ errorMessage.getD "undefined" ++ "\n"]
  | .unknown s =>
    ["[" ++ timestamp ++ "] ⚠️ Tool " ++ toolName ++ " reported unknown status: " ++ s ++ "\n"]

/-- A `ToolCallRequestInfo` handed to the tool-execution dispatcher. -/
structure ToolCallRequestInfo where
  callId : String
  name : String
  args : ArgsMap
  isClientInitiated : Bool
  prompt_id : String
deriving DecidableEq, Repr

/-- The `error` object of a failed `ToolCallResponse`. -/
structure ErrorObj where
  message : String
deriving DecidableEq, Repr

/-- One element of the `responseParts` union: a bare string, a `Part`
object, or a nullish (falsy) value that is skipped. -/
inductive PartUnion where
  | str (s : String)
  | part (p : RPart)
  | nullish
deriving DecidableEq, Repr

/-- `responseParts` may be a single element or an array of elements. -/
inductive RespParts where
  | single (p : PartUnion)
  | array (ps : List PartUnion)
deriving DecidableEq, Repr

/-- The dispatcher's `ToolCallResponse`. -/
structure ToolCallResponse where
  error : Option ErrorObj := none
  resultDisplay : Option ToolResultDisplay := none
  responseParts : Option RespParts := none
deriving DecidableEq, Repr

/-- Truthiness of the `responseParts` field (`undefined`, `null` and a
bare empty string are falsy; arrays and objects are truthy). -/
def respPartsTruthy : Option RespParts → Bool
  | none => false
  | some (.single (.str s)) => s ≠ ""
  | some (.single .nullish) => false
  | some _ => true

/-- Pushing one `responseParts` element: bare strings are wrapped as
text parts, truthy parts are kept as-is, nullish elements are skipped. -/
def pushPart : PartUnion → List RPart
  | .str s => [{ thought := false, text := some s }]
  | .part p => [p]
  | .nullish => []

/-- Normalisation of `responseParts` into the list of `Part`s appended
to the synthesized result turn. -/
def normalizeResponseParts (rp : Option RespParts) : List RPart :=
  if respPartsTruthy rp then
    match rp with
    | none => []
    | some (.single p) => pushPart p
    | some (.array ps) => ps.flatMap pushPart
  else []

/-- Substring test on char lists (JavaScript `String.prototype.includes`). -/
def containsSub (needle : List Char) : List Char → Bool
  | [] => needle.isEmpty
  | c :: rest => needle.isPrefixOf (c :: rest) || containsSub needle rest

/-- `s.includes(sub)` for strings. -/
def strIncludes (s sub : String) : Bool :=
  containsSub sub.data s.data

/-- The callId synthesized for a `FunctionCall` without an `id`:
`` `${fc.name}-${Date.now()}` ``. -/
def synthCallId (name : String) (t : Nat) : String :=
  name ++ "-" ++ Nat.repr t

/-- `${resultDisplay || error.message}` as rendered into the standard
error line: a truthy string is used as-is, a truthy object renders as
`[object Object]`, otherwise the error message is used. -/
def rdOrErr (resultDisplay : Option ToolResultDisplay) (errMsg : String) : String :=
  match resultDisplay with
  | some (.str s) => if s ≠ "" then s else errMsg
  | some (.fileDiffObj _ _) => "[object Object]"
  | some .otherObj => "[object Object]"
  | none => errMsg

/-- The external world of one `runNonInteractive` invocation: the
configuration value, the scripted streaming client (indexed by the turn
count and the message parts sent), the tool-execution dispatcher, the
wall clocks (indexed by read counters) and the abort signal (indexed by
the number of chunks processed so far). -/
structure Env where
  maxSessionTurns : Int
  stream : Nat → List RPart → List GenResponse
  dispatch : ToolCallRequestInfo → ToolCallResponse
  now : Nat → Nat
  localeTime : Nat → String
  sigAborted : Nat → Bool
  prompt_id : String

/-- Observable run state threaded through the loop: the writes made to
standard output and standard error, the dispatched tool-call requests in
order, and the counters feeding the external clocks and the signal. -/
structure RunState where
  stdout : List String := []
  stderr : List String := []
  dispatched : List ToolCallRequestInfo := []
  chunksProcessed : Nat := 0
  clockCalls : Nat := 0
  timeCalls : Nat := 0
  passes : Nat := 0
deriving Repr

/-- A conversation turn (`Content`): role plus ordered parts. -/
structure ContentMsg where
  role : String
  parts : List RPart
deriving DecidableEq, Repr

/-- Terminal outcome of the loop.  `completed`, `maxTurnsReached` and
`cancelled` are normal returns (exit status 0); `fatalToolError` is
`process.exit(1)`. -/
inductive Outcome where
  | completed
  | maxTurnsReached
  | cancelled
  | fatalToolError
  | outOfFuel
deriving DecidableEq, Repr

/-- The text writes a list of chunks produces: the truthy extracted
text of each chunk, in order. -/
def streamTexts (chunks : List GenResponse) : List String :=
  chunks.filterMap fun c =>
    match getResponseText c with
    | some t => if t ≠ "" then some t else none
    | none => none

/-- The function calls a list of chunks accumulates, in arrival order. -/
def collectCalls (chunks : List GenResponse) : List FunctionCall :=
  chunks.flatMap fun c => c.functionCalls.getD []

/-- `currentMessages[0]?.parts || []`. -/
def msgPartsOf (currentMessages : List ContentMsg) : List RPart :=
  ((currentMessages.head?).map ContentMsg.parts).getD []

/-- The `for await (const resp of responseStream)` body: check the
abort signal, write extracted truthy text, accumulate function calls.
Returns `none` when cancellation was observed. -/
def streamLoop (env : Env) : List GenResponse → RunState → List FunctionCall →
    RunState × Option (List FunctionCall)
  | [], st, acc => (st, some acc)
  | resp :: rest, st, acc =>
    if env.sigAborted st.chunksProcessed then
      ({ st with stderr := st.stderr ++ ["Operation cancelled."] }, none)
    else
      let st1 :=
        match getResponseText resp with
        | some t => if t ≠ "" then { st with stdout := st.stdout ++ [t] } else st
        | none => st
      let acc1 :=
        match resp.functionCalls with
        | some fcs => acc ++ fcs
        | none => acc
      streamLoop env rest { st1 with chunksProcessed := st1.chunksProcessed + 1 } acc1

/-- The `ToolCallRequestInfo` built for one `FunctionCall`, given the
current count of `Date.now()` reads: `callId` is `fc.id` when present,
else the synthesized name-plus-timestamp id. -/
def requestOf (env : Env) (fc : FunctionCall) (clockCalls : Nat) : ToolCallRequestInfo :=
  { callId :=
      match fc.id with
      | some i => i
      | none => synthCallId fc.name (env.now clockCalls),
    name := fc.name, args := fc.args.getD [],
    isClientInitiated := false, prompt_id := env.prompt_id }

/-- `Date.now()` is read once per id-less call (the `??` operator
short-circuits), so the clock-read counter advances accordingly. -/
def advanceClock : List FunctionCall → Nat → Nat
  | [], c => c
  | fc :: rest, c =>
    advanceClock rest
      (match fc.id with
       | some _ => c
       | none => c + 1)

/-- The requests a list of accumulated calls produces, in arrival
order, with the clock-read counter threaded through. -/
def requestsOf (env : Env) : List FunctionCall → Nat → List ToolCallRequestInfo
  | [], _ => []
  | fc :: rest, c =>
    requestOf env fc c ::
      requestsOf env rest
        (match fc.id with
         | some _ => c
         | none => c + 1)

/-- The message passed to the `error` observability event:
`typeof resultDisplay === 'string' ? resultDisplay : error.message`. -/
def errDisplayMessage (resp : ToolCallResponse) (fallback : String) : String :=
  match resp.resultDisplay with
  | some (.str s) => s
  | _ => fallback

/-- A dispatcher response that does not terminate the process: either no
error, or an error whose message contains "not found in registry". -/
def nonFatalResponse (r : ToolCallResponse) : Bool :=
  match r.error with
  | none => true
  | some e => strIncludes e.message "not found in registry"

/-- One iteration of the dispatch loop body for a single accumulated
`FunctionCall`: synthesize the callId, build the request, emit the
`start` event, invoke the dispatcher, report the outcome, and return
the parts to append — or `none` when `process.exit(1)` was reached. -/
def dispatchOne (env : Env) (fc : FunctionCall) (st : RunState) :
    RunState × Option (List RPart) :=
  let requestInfo := requestOf env fc st.clockCalls
  let st :=
    match fc.id with
    | some _ => st
    | none => { st with clockCalls := st.clockCalls + 1 }
  let st := { st with
    stdout := st.stdout ++
      displayToolCallInfo (env.localeTime st.timeCalls) fc.name (fc.args.getD [])
        .start none none,
    timeCalls := st.timeCalls + 1 }
  let toolResponse := env.dispatch requestInfo
  let st := { st with dispatched := st.dispatched ++ [requestInfo] }
  match toolResponse.error with
  | some e =>
    let errorMessage : Option String := some (errDisplayMessage toolResponse e.message)
    let st := { st with
      stdout := st.stdout ++
        displayToolCallInfo (env.localeTime st.timeCalls) fc.name (fc.args.getD [])
          .error none errorMessage,
      timeCalls := st.timeCalls + 1 }
    let isToolNotFound := strIncludes e.message "not found in registry"
    let st := { st with stderr := st.stderr ++
      ["Error executing tool " ++ fc.name ++ ": " ++
        rdOrErr toolResponse.resultDisplay e.message] }
    if isToolNotFound then
      (st, some (normalizeResponseParts toolResponse.responseParts))
    else
      (st, none)
  | none =>
    let st := { st with
      stdout := st.stdout ++
        displayToolCallInfo (env.localeTime st.timeCalls) fc.name (fc.args.getD [])
          .success toolResponse.resultDisplay none,
      timeCalls := st.timeCalls + 1 }
    (st, some (normalizeResponseParts toolResponse.responseParts))

/-- The `for (const fc of functionCalls)` loop: dispatch each call
sequentially in accumulation order, appending each call's normalized
`responseParts`; `none` when a fatal tool error exited the process. -/
def dispatchCalls (env : Env) : List FunctionCall → RunState → List RPart →
    RunState × Option (List RPart)
  | [], st, parts => (st, some parts)
  | fc :: rest, st, parts =>
    match dispatchOne env fc st with
    | (st1, some newParts) => dispatchCalls env rest st1 (parts ++ newParts)
    | (st1, none) => (st1, none)

/-- The budget message written to standard error when the turn limit is hit. -/
def maxTurnsMessage : String :=
  "\n Reached max session turns for this session. Increase the number of turns by specifying maxSessionTurns in settings.json."

/-- The `while (true)` turn loop of `runNonInteractive`, with explicit
fuel (the source loop has no structural bound; any fuel larger than the
number of iterations actually taken yields the same result). -/
def runLoop (env : Env) : Nat → List ContentMsg → Nat → RunState → RunState × Outcome
  | 0, _, _, st => (st, .outOfFuel)
  | fuel + 1, currentMessages, turnCount, st =>
    let turnCount := turnCount + 1
    if env.maxSessionTurns > 0 ∧ (turnCount : Int) > env.maxSessionTurns then
      ({ st with stderr := st.stderr ++ [maxTurnsMessage] }, .maxTurnsReached)
    else
      let chunks := env.stream turnCount (msgPartsOf currentMessages)
      let stP := { st with passes := st.passes + 1 }
      match streamLoop env chunks stP [] with
      | (st1, none) => (st1, .cancelled)
      | (st1, some functionCalls) =>
        if functionCalls.length > 0 then
          match dispatchCalls env functionCalls st1 [] with
          | (st2, none) => (st2, .fatalToolError)
          | (st2, some toolResponseParts) =>
            runLoop env fuel [{ role := "user", parts := toolResponseParts }] turnCount st2
        else
          ({ st1 with stdout := st1.stdout ++ ["\n"] }, .completed)

/-- Entry point: run the loop from the initial user message. -/
def runNonInteractive (env : Env) (input : String) (fuel : Nat) : RunState × Outcome :=
  runLoop env fuel [{ role := "user", parts := [{ thought := false, text := some input }] }] 0 {}

/-- The run state after one cancelled-free streaming pass for the turn
numbered `tcNext`: one more pass, the turn's texts written, the turn's
chunks counted. -/
def streamedState (env : Env) (tcNext : Nat) (msgs : List ContentMsg)
    (st : RunState) : RunState :=
  { st with passes := st.passes + 1,
            stdout := st.stdout ++ streamTexts (env.stream tcNext (msgPartsOf msgs)),
            chunksProcessed := st.chunksProcessed + (env.stream tcNext (msgPartsOf msgs)).length }

/-- Numeric value of a decimal digit character (decoder for `Nat.repr`). -/
def digitVal (c : Char) : Nat := c.toNat - 48

/-- A chunk carrying only display text. -/
def chunkText (t : String) : GenResponse :=
  ⟨some [⟨some ⟨some [⟨false, some t⟩]⟩⟩], none⟩

/-- A chunk carrying only a single id-less function call. -/
def chunkCall (nm : String) : GenResponse :=
  ⟨none, some [⟨none, nm, none⟩]⟩

/-- A concrete environment whose millisecond clock is frozen (two reads
in the same millisecond) and whose dispatcher always succeeds with an
empty response. -/
def envConstClock : Env where
  maxSessionTurns := 0
  stream := fun _ _ => []
  dispatch := fun _ => {}
  now := fun _ => 0
  localeTime := fun _ => "12:00:00"
  sigAborted := fun _ => false
  prompt_id := "p"

/-- A concrete environment whose abort signal becomes set once one chunk
has been processed, over a two-chunk stream. -/
def envAbort : Env where
  maxSessionTurns := 0
  stream := fun _ _ => [chunkText "A", chunkText "B"]
  dispatch := fun _ => {}
  now := fun _ => 0
  localeTime := fun _ => "t"
  sigAborted := fun k => decide (1 ≤ k)
  prompt_id := "p"

/-- A concrete environment whose dispatcher always answers with a
tool-not-found error; the model requests one call on turn 1 and stops. -/
def envNotFound : Env where
  maxSessionTurns := 0
  stream := fun tcN _ => if tcN = 1 then [chunkCall "ls"] else []
  dispatch := fun _ =>
    { error := some ⟨"Tool ls not found in registry"⟩,
      resultDisplay := none, responseParts := none }
  now := fun _ => 0
  localeTime := fun _ => "t"
  sigAborted := fun _ => false
  prompt_id := "p"

/-- A concrete environment whose dispatcher always answers with an
error that is not a not-found error. -/
def envFatal : Env where
  maxSessionTurns := 0
  stream := fun tcN _ => if tcN = 1 then [chunkCall "ls"] else []
  dispatch := fun _ =>
    { error := some ⟨"boom"⟩, resultDisplay := none, responseParts := none }
  now := fun _ => 0
  localeTime := fun _ => "t"
  sigAborted := fun _ => false
  prompt_id := "p"

/-- A concrete environment requesting two calls in one turn; the
dispatcher echoes each request's name back as a bare-string part. -/
def envSeq : Env where
  maxSessionTurns := 0
  stream := fun tcN _ =>
    if tcN = 1 then [⟨none, some [⟨none, "a", none⟩, ⟨none, "b", none⟩]⟩] else []
  dispatch := fun r =>
    { error := none, resultDisplay := none,
      responseParts := some (.single (.str r.name)) }
  now := fun k => k
  localeTime := fun _ => "t"
  sigAborted := fun _ => false
  prompt_id := "p"

/-- A concrete environment with a turn budget of 2 and a model that
requests one tool call on every turn; the dispatcher always succeeds. -/
def envBudget : Env where
  maxSessionTurns := 2
  stream := fun _ _ => [chunkCall "ls"]
  dispatch := fun _ => {}
  now := fun k => k
  localeTime := fun _ => "t"
  sigAborted := fun _ => false
  prompt_id := "p"

end CliModel

namespace StartupWarnings

/-- The external world of the startup checks: `fs.realpath` (`none`
models a thrown file-system error), `os.homedir()`, and the running
Node version with its semver major. -/
structure FsEnv where
  realpath : String → Option String
  homedir : String
  nodeVersion : String
  nodeMajor : Nat

/-- Warning text for running inside the home directory. -/
def homeDirWarning : String :=
  "You are running MINE-AI Code in your home directory. It is recommended to run in a project-specific directory."

/-- Warning text when real-path resolution fails. -/
def couldNotVerifyWarning : String :=
  "Could not verify the current directory due to a file system error."

/-- `homeDirectoryCheck.check`: resolve both real paths, compare, and
fall back to the could-not-verify warning when either resolution throws. -/
def homeDirectoryCheck (env : FsEnv) (workspaceRoot : String) : Option String :=
  match env.realpath workspaceRoot, env.realpath env.homedir with
  | some workspaceRealPath, some homeRealPath =>
    if workspaceRealPath = homeRealPath then some homeDirWarning else none
  | _, _ => some couldNotVerifyWarning

/-- `nodeVersionCheck.check`: warn when the Node major version is below 20. -/
def nodeVersionCheck (env : FsEnv) : Option String :=
  let minMajor : Nat := 20
  if env.nodeMajor < minMajor then
    some ("You are using Node.js v" ++ env.nodeVersion ++ ". Gemini CLI requires Node.js " ++
      Nat.repr minMajor ++ " or higher for best results.")
  else
    none

/-- `getUserStartupWarnings`: run both checks (home-directory first,
node-version second) and keep the non-null messages in order. -/
def getUserStartupWarnings (env : FsEnv) (workspaceRoot : String) : List String :=
  [homeDirectoryCheck env workspaceRoot, nodeVersionCheck env].filterMap id

end StartupWarnings

open CliModel StartupWarnings in
/-- C7: for every streamed response whose first candidate's first part is
marked as a thought, `getResponseText` returns `none` regardless of the
text carried by any other part; when the first part is not a thought the
result is determined by the parts' text fields alone (the thought check
applies only at index 0). -/
theorem claim_C7 (cand : Candidate) (rest : List Candidate)
    (fcs : Option (List FunctionCall)) (p0 : RPart) (ps : List RPart)
    (hc : cand.content = some ⟨some (p0 :: ps)⟩) :
    (p0.thought = true →
      getResponseText ⟨some (cand :: rest), fcs⟩ = none) ∧
    (p0.thought = false →
      getResponseText ⟨some (cand :: rest), fcs⟩ =
        some (String.join (((p0 :: ps).filter fun p => textTruthy p.text).map
          fun p => p.text.getD ""))) := by
  constructor <;> intro h <;> simp [getResponseText, hc, h]

open CliModel in
/-- C7 witness: a concrete response whose first part is a thought and
whose second part carries text still extracts to `none`. -/
theorem claim_C7_witness :
    getResponseText
      ⟨some [⟨some ⟨some [⟨true, some "hidden"⟩, ⟨false, some "visible"⟩]⟩⟩], none⟩ =
      none :=
  (claim_C7 ⟨some ⟨some [⟨true, some "hidden"⟩, ⟨false, some "visible"⟩]⟩⟩ []
    none ⟨true, some "hidden"⟩ [⟨false, some "visible"⟩] rfl).1 rfl

open CliModel in
/-- C9: a response whose first candidate has a non-empty parts list, whose
first part is not a thought, and in which no part carries truthy text,
extracts to `some ""` (not `none`); and the stream loop writes nothing to
standard output for such a chunk, proceeding directly to the next chunk
with only the function calls accumulated. -/
theorem claim_C9 (resp : GenResponse) (cand : Candidate) (rest : List Candidate)
    (p0 : RPart) (ps : List RPart)
    (hcand : resp.candidates = some (cand :: rest))
    (hc : cand.content = some ⟨some (p0 :: ps)⟩)
    (ht : p0.thought = false)
    (hno : ∀ p ∈ p0 :: ps, textTruthy p.text = false) :
    getResponseText resp = some "" ∧
    ∀ (env : Env) (st : RunState) (acc : List FunctionCall)
      (rest2 : List GenResponse),
      env.sigAborted st.chunksProcessed = false →
      streamLoop env (resp :: rest2) st acc =
        streamLoop env rest2 { st with chunksProcessed := st.chunksProcessed + 1 }
          (acc ++ resp.functionCalls.getD []) := by
  have hext : getResponseText resp = some "" := by
    obtain ⟨cands, fcs⟩ := resp
    simp only at hcand
    subst hcand
    have hfilter : (p0 :: ps).filter (fun p => textTruthy p.text) = [] := by
      apply List.filter_eq_nil_iff.mpr
      intro p hp
      simp [hno p hp]
    simp [getResponseText, hc, ht, hfilter, String.join]
  refine ⟨hext, ?_⟩
  intro env st acc rest2 hsig
  simp only [streamLoop, hsig, Bool.false_eq_true, if_false, hext]
  cases hfc : resp.functionCalls <;> simp [hfc]

open CliModel in
/-- C9 witness: a concrete text-free chunk extracts to `some ""` and the
stream loop passes over it without writing. -/
theorem claim_C9_witness :
    getResponseText
      ⟨some [⟨some ⟨some [⟨false, none⟩, ⟨false, some ""⟩]⟩⟩], none⟩ = some "" :=
  (claim_C9 ⟨some [⟨some ⟨some [⟨false, none⟩, ⟨false, some ""⟩]⟩⟩], none⟩
    ⟨some ⟨some [⟨false, none⟩, ⟨false, some ""⟩]⟩⟩ [] ⟨false, none⟩ [⟨false, some ""⟩]
    rfl rfl rfl (by decide)).1

open CliModel in
/-- C6 counterexample: `" "` is a non-empty string, yet the success
reporter prints the "(no output)" banner instead of a completion banner
followed by the string verbatim (the code additionally requires the
string to be non-blank after `trim()`). -/
theorem claim_C6_counterexample :
    (" " ≠ "") ∧
    displayToolCallInfo "T" "tool" [] .success (some (.str " ")) none =
      ["[T] ✅ Tool tool completed successfully (no output)\n"] ∧
    displayToolCallInfo "T" "tool" [] .success (some (.str " ")) none ≠
      ["[T] ✅ Tool tool completed successfully\n", "📋 Result:\n \n"] := by
  refine ⟨by decide, by rfl, ?_⟩
  intro h
  have hlen := congrArg List.length h
  simp [displayToolCallInfo, formatToolArgs, jsTrim] at hlen

open CliModel in
/-- C6 (amended): on status `success`, a string `resultDisplay` that is
non-blank after trimming prints the completion banner followed by the
string verbatim; a file-diff object prints the file name and diff body;
every other case (absent, empty or whitespace-only string, or
unrecognized object) prints the "completed, no output" banner. -/
theorem claim_C6 (timestamp toolName : String) (args : ArgsMap)
    (rd : Option ToolResultDisplay) :
    (∀ s, rd = some (.str s) → jsTrim s ≠ "" →
      displayToolCallInfo timestamp toolName args .success rd none =
        ["[" ++ timestamp ++ "] ✅ Tool " ++ toolName ++ " completed successfully\n",
         "📋 Result:\n" ++ s ++ "\n"]) ∧
    (∀ fileName fileDiff, rd = some (.fileDiffObj fileName fileDiff) →
      displayToolCallInfo timestamp toolName args .success rd none =
        ["[" ++ timestamp ++ "] ✅ Tool " ++ toolName ++ " completed successfully\n",
         "📋 File: " ++ fileName ++ "\n",
         "📋 Diff:\n" ++ fileDiff ++ "\n"]) ∧
    (rd = none ∨ rd = some .otherObj ∨ (∃ s, rd = some (.str s) ∧ jsTrim s = "") →
      displayToolCallInfo timestamp toolName args .success rd none =
        ["[" ++ timestamp ++ "] ✅ Tool " ++ toolName ++
          " completed successfully (no output)\n"]) := by
  refine ⟨?_, ?_, ?_⟩
  · intro s hrd htrim
    subst hrd
    have hne : s ≠ "" := by
      intro h
      subst h
      exact htrim rfl
    simp [displayToolCallInfo, hne, htrim]
  · intro fileName fileDiff hrd
    subst hrd
    simp [displayToolCallInfo]
  · rintro (hrd | hrd | ⟨s, hrd, htrim⟩)
    · subst hrd
      simp [displayToolCallInfo]
    · subst hrd
      simp [displayToolCallInfo]
    · subst hrd
      simp [displayToolCallInfo, htrim]

open CliModel in
/-- C6 witness: the amended theorem applied at concrete inputs for all
three branches. -/
theorem claim_C6_witness :
    displayToolCallInfo "T" "tool" [] .success (some (.str "ok")) none =
      ["[T] ✅ Tool tool completed successfully\n", "📋 Result:\nok\n"] ∧
    displayToolCallInfo "T" "tool" [] .success (some (.fileDiffObj "f.txt" "+x")) none =
      ["[T] ✅ Tool tool completed successfully\n", "📋 File: f.txt\n", "📋 Diff:\n+x\n"] ∧
    displayToolCallInfo "T" "tool" [] .success none none =
      ["[T] ✅ Tool tool completed successfully (no output)\n"] :=
  ⟨(claim_C6 "T" "tool" [] (some (.str "ok"))).1 "ok" rfl (by decide),
   (claim_C6 "T" "tool" [] (some (.fileDiffObj "f.txt" "+x"))).2.1 "f.txt" "+x" rfl,
   (claim_C6 "T" "tool" [] none).2.2 (Or.inl rfl)⟩

open StartupWarnings in
/-- C10: when resolving the real path of the workspace or of the home
directory fails, the home-directory check returns the could-not-verify
warning instead of propagating the error; `getUserStartupWarnings` is
always the home-directory result followed by the node-version result,
hence a list of at most two messages in fixed order. -/
theorem claim_C10 (env : FsEnv) (workspaceRoot : String)
    (hfail : env.realpath workspaceRoot = none ∨ env.realpath env.homedir = none) :
    homeDirectoryCheck env workspaceRoot = some couldNotVerifyWarning ∧
    getUserStartupWarnings env workspaceRoot =
      (homeDirectoryCheck env workspaceRoot).toList ++ (nodeVersionCheck env).toList ∧
    (getUserStartupWarnings env workspaceRoot).length ≤ 2 := by
  have hshape : getUserStartupWarnings env workspaceRoot =
      (homeDirectoryCheck env workspaceRoot).toList ++ (nodeVersionCheck env).toList := by
    unfold getUserStartupWarnings
    cases homeDirectoryCheck env workspaceRoot <;> cases nodeVersionCheck env <;> simp
  have hhome : homeDirectoryCheck env workspaceRoot = some couldNotVerifyWarning := by
    unfold homeDirectoryCheck
    rcases hfail with h | h
    · rw [h]
    · rw [h]
      cases env.realpath workspaceRoot <;> rfl
  refine ⟨hhome, hshape, ?_⟩
  rw [hshape]
  cases homeDirectoryCheck env workspaceRoot <;> cases nodeVersionCheck env <;> simp

open StartupWarnings in
/-- C10 witness: a concrete environment whose `realpath` always fails
yields exactly the could-not-verify warning (plus no node warning). -/
theorem claim_C10_witness :
    homeDirectoryCheck ⟨fun _ => none, "/home/u", "22.0.0", 22⟩ "/w" =
      some couldNotVerifyWarning ∧
    getUserStartupWarnings ⟨fun _ => none, "/home/u", "22.0.0", 22⟩ "/w" =
      (homeDirectoryCheck ⟨fun _ => none, "/home/u", "22.0.0", 22⟩ "/w").toList ++
      (nodeVersionCheck ⟨fun _ => none, "/home/u", "22.0.0", 22⟩).toList ∧
    (getUserStartupWarnings ⟨fun _ => none, "/home/u", "22.0.0", 22⟩ "/w").length ≤ 2 :=
  claim_C10 ⟨fun _ => none, "/home/u", "22.0.0", 22⟩ "/w" (Or.inl rfl)

/-- Helper: `Nat.digitChar` never produces a dash. -/
theorem digitChar_ne_dash (m : Nat) : Nat.digitChar m ≠ '-' := by
  by_cases hm : m < 16
  · interval_cases m <;> decide
  · have hne : ∀ k : Nat, k < 16 → ¬(m = k) := fun k hk => by omega
    unfold Nat.digitChar
    rw [if_neg (hne 0 (by norm_num)), if_neg (hne 1 (by norm_num)),
      if_neg (hne 2 (by norm_num)), if_neg (hne 3 (by norm_num)),
      if_neg (hne 4 (by norm_num)), if_neg (hne 5 (by norm_num)),
      if_neg (hne 6 (by norm_num)), if_neg (hne 7 (by norm_num)),
      if_neg (hne 8 (by norm_num)), if_neg (hne 9 (by norm_num)),
      if_neg (hne 10 (by norm_num)), if_neg (hne 11 (by norm_num)),
      if_neg (hne 12 (by norm_num)), if_neg (hne 13 (by norm_num)),
      if_neg (hne 14 (by norm_num)), if_neg (hne 15 (by norm_num))]
    decide

/-- Helper: `Nat.toDigitsCore` prepends its digits to the accumulator. -/
theorem toDigitsCore_eq_append (b : Nat) :
    ∀ (fuel n : Nat) (ds : List Char),
      Nat.toDigitsCore b fuel n ds = Nat.toDigitsCore b fuel n [] ++ ds := by
  intro fuel
  induction fuel with
  | zero => intro n ds; simp [Nat.toDigitsCore]
  | succ fuel ih =>
    intro n ds
    simp only [Nat.toDigitsCore]
    by_cases h0 : n / b = 0
    · simp [h0]
    · rw [if_neg h0, if_neg h0, ih (n / b) (Nat.digitChar (n % b) :: ds),
        ih (n / b) [Nat.digitChar (n % b)], List.append_assoc, List.singleton_append]

/-- Helper: every character `Nat.toDigitsCore` emits is some `digitChar`. -/
theorem mem_toDigitsCore (b : Nat) :
    ∀ (fuel n : Nat) (c : Char), c ∈ Nat.toDigitsCore b fuel n [] →
      ∃ m, c = Nat.digitChar m := by
  intro fuel
  induction fuel with
  | zero => intro n c h; simp [Nat.toDigitsCore] at h
  | succ fuel ih =>
    intro n c h
    simp only [Nat.toDigitsCore] at h
    by_cases h0 : n / b = 0
    · rw [if_pos h0] at h
      simp at h
      exact ⟨n % b, h⟩
    · rw [if_neg h0, toDigitsCore_eq_append] at h
      rcases List.mem_append.mp h with h | h
      · exact ih (n / b) c h
      · simp at h
        exact ⟨n % b, h⟩

/-- Helper: the decimal representation of a natural number has no dash. -/
theorem dash_not_mem_repr (n : Nat) : '-' ∉ (Nat.repr n).data := by
  intro h
  have hmem : '-' ∈ Nat.toDigitsCore 10 (n + 1) n [] := by
    simpa [Nat.repr, Nat.toDigits, List.asString] using h
  rcases mem_toDigitsCore 10 (n + 1) n '-' hmem with ⟨m, hm⟩
  exact digitChar_ne_dash m hm.symm

open CliModel in
/-- Helper: `digitVal` inverts `digitChar` on decimal digits. -/
theorem digitVal_digitChar (d : Nat) (h : d < 10) :
    digitVal (Nat.digitChar d) = d := by
  interval_cases d <;> rfl

open CliModel in
/-- Helper: folding the decimal decode over `toDigitsCore` recovers the
number. -/
theorem foldl_toDigitsCore :
    ∀ (fuel n a : Nat), n < fuel →
      (Nat.toDigitsCore 10 fuel n []).foldl (fun acc c => acc * 10 + digitVal c) a =
        a * 10 ^ (Nat.toDigitsCore 10 fuel n []).length + n := by
  intro fuel
  induction fuel with
  | zero => intro n a h; exact absurd h (Nat.not_lt_zero n)
  | succ fuel ih =>
    intro n a h
    simp only [Nat.toDigitsCore]
    by_cases h0 : n / 10 = 0
    · have hval := digitVal_digitChar (n % 10) (Nat.mod_lt n (by norm_num))
      have hn : n % 10 = n := by omega
      rw [if_pos h0]
      simp only [List.foldl_cons, List.foldl_nil, List.length_cons,
        List.length_nil, Nat.zero_add, pow_one]
      rw [hval, hn]
    · have hpos : 0 < n := by
        rcases Nat.eq_zero_or_pos n with rfl | hp
        · simp at h0
        · exact hp
      have hlt : n / 10 < fuel := by
        have hself : n / 10 < n := Nat.div_lt_self hpos (by norm_num)
        omega
      rw [if_neg h0, toDigitsCore_eq_append, List.foldl_append, ih (n / 10) a hlt]
      simp only [List.foldl_cons, List.foldl_nil, List.length_append,
        List.length_cons, List.length_nil, Nat.zero_add]
      rw [digitVal_digitChar (n % 10) (Nat.mod_lt n (by norm_num))]
      set L := (Nat.toDigitsCore 10 fuel (n / 10) []).length with hL
      have hdm : n / 10 * 10 + n % 10 = n := by omega
      calc (a * 10 ^ L + n / 10) * 10 + n % 10
          = a * (10 ^ L * 10) + (n / 10 * 10 + n % 10) := by ring
        _ = a * 10 ^ (L + 1) + n := by rw [hdm, pow_succ]

/-- Helper: the decimal representation is injective. -/
theorem nat_repr_injective (m n : Nat) (h : Nat.repr m = Nat.repr n) : m = n := by
  have hdata : Nat.toDigitsCore 10 (m + 1) m [] = Nat.toDigitsCore 10 (n + 1) n [] := by
    have hd := congrArg String.data h
    simpa [Nat.repr, Nat.toDigits, List.asString] using hd
  have hm := foldl_toDigitsCore (m + 1) m 0 (Nat.lt_succ_self m)
  have hn := foldl_toDigitsCore (n + 1) n 0 (Nat.lt_succ_self n)
  rw [hdata] at hm
  rw [hm] at hn
  omega

/-- Helper: splitting a char list at a dash whose right side is
dash-free is unambiguous. -/
theorem append_dash_inj :
    ∀ (a1 a2 d1 d2 : List Char), '-' ∉ d1 → '-' ∉ d2 →
      a1 ++ '-' :: d1 = a2 ++ '-' :: d2 → a1 = a2 ∧ d1 = d2 := by
  intro a1
  induction a1 with
  | nil =>
    intro a2 d1 d2 h1 h2 h
    cases a2 with
    | nil =>
      simp only [List.nil_append, List.cons.injEq] at h
      exact ⟨rfl, h.2⟩
    | cons x xs =>
      exfalso
      simp only [List.nil_append, List.cons_append, List.cons.injEq] at h
      apply h1
      rw [h.2]
      exact List.mem_append.mpr (Or.inr (List.mem_cons_self _ _))
  | cons y ys ih =>
    intro a2 d1 d2 h1 h2 h
    cases a2 with
    | nil =>
      exfalso
      simp only [List.nil_append, List.cons_append, List.cons.injEq] at h
      apply h2
      rw [← h.2]
      exact List.mem_append.mpr (Or.inr (List.mem_cons_self _ _))
    | cons x xs =>
      simp only [List.cons_append, List.cons.injEq] at h
      rcases ih xs d1 d2 h1 h2 h.2 with ⟨hax, hd⟩
      exact ⟨by rw [h.1, hax], hd⟩

open CliModel in
/-- Helper: `synthCallId` is injective in the (name, timestamp) pair. -/
theorem synthCallId_inj (n1 n2 : String) (t1 t2 : Nat)
    (h : synthCallId n1 t1 = synthCallId n2 t2) : n1 = n2 ∧ t1 = t2 := by
  have hd : n1.data ++ '-' :: (Nat.repr t1).data =
      n2.data ++ '-' :: (Nat.repr t2).data := by
    have := congrArg String.data h
    simpa [synthCallId, String.data_append] using this
  rcases append_dash_inj n1.data n2.data (Nat.repr t1).data (Nat.repr t2).data
    (dash_not_mem_repr t1) (dash_not_mem_repr t2) hd with ⟨hn, ht⟩
  exact ⟨String.ext hn, nat_repr_injective t1 t2 (String.ext ht)⟩

open CliModel in
/-- C5 counterexample: two distinct accumulated id-less function calls
sharing a name, synthesized while `Date.now()` reads the same
millisecond, receive the SAME callId (`"ls-0"` twice): the synthesized
callIds are not always distinct within a turn. -/
theorem claim_C5_counterexample :
    ((dispatchCalls envConstClock
        [{ id := none, name := "ls", args := none },
         { id := none, name := "ls", args := none }] {} []).1.dispatched.map
      ToolCallRequestInfo.callId) = ["ls-0", "ls-0"] := by
  rfl

open CliModel in
/-- C5 (amended): the callIds the driver synthesizes for id-less calls
(name + "-" + millisecond timestamp) are distinct whenever the two
calls' names differ or the two `Date.now()` readings differ; two
same-named id-less calls synthesized in the same clock millisecond
receive identical callIds. -/
theorem claim_C5 (n1 n2 : String) (t1 t2 : Nat) (h : n1 ≠ n2 ∨ t1 ≠ t2) :
    synthCallId n1 t1 ≠ synthCallId n2 t2 := by
  intro heq
  rcases synthCallId_inj n1 n2 t1 t2 heq with ⟨hn, ht⟩
  rcases h with h | h
  · exact h hn
  · exact h ht

open CliModel in
/-- C5 witness: concrete distinct timestamps give distinct callIds. -/
theorem claim_C5_witness :
    (("ls" : String) ≠ "ls" ∨ (5 : Nat) ≠ 6) ∧
    synthCallId "ls" 5 ≠ synthCallId "ls" 6 :=
  ⟨Or.inr (by decide), claim_C5 "ls" "ls" 5 6 (Or.inr (by decide))⟩

open CliModel in
/-- Helper: with the abort signal never set, the stream loop writes the
truthy texts in order, accumulates calls in arrival order, and touches
nothing else in the run state. -/
theorem streamLoop_no_abort (env : Env) (hsig : ∀ k, env.sigAborted k = false) :
    ∀ (chunks : List GenResponse) (st : RunState) (acc : List FunctionCall),
      streamLoop env chunks st acc =
        ({ st with stdout := st.stdout ++ streamTexts chunks,
                   chunksProcessed := st.chunksProcessed + chunks.length },
         some (acc ++ collectCalls chunks)) := by
  intro chunks
  induction chunks with
  | nil =>
    intro st acc
    simp [streamLoop, streamTexts, collectCalls]
  | cons c rest ih =>
    intro st acc
    cases hT : getResponseText c with
    | none =>
      cases hF : c.functionCalls with
      | none =>
        simp only [streamLoop, hsig, Bool.false_eq_true, if_false, hT, hF]
        rw [ih]
        simp [streamTexts, collectCalls, hT, hF]
        omega
      | some fcs =>
        simp only [streamLoop, hsig, Bool.false_eq_true, if_false, hT, hF]
        rw [ih]
        simp [streamTexts, collectCalls, hT, hF]
        omega
    | some t =>
      by_cases ht : t = ""
      · subst ht
        cases hF : c.functionCalls with
        | none =>
          simp only [streamLoop, hsig, Bool.false_eq_true, if_false, hT, hF,
            ne_eq, not_true_eq_false, if_false]
          rw [ih]
          simp [streamTexts, collectCalls, hT, hF]
          omega
        | some fcs =>
          simp only [streamLoop, hsig, Bool.false_eq_true, if_false, hT, hF,
            ne_eq, not_true_eq_false, if_false]
          rw [ih]
          simp [streamTexts, collectCalls, hT, hF]
          omega
      · cases hF : c.functionCalls with
        | none =>
          simp only [streamLoop, hsig, Bool.false_eq_true, if_false, hT, hF,
            if_pos (show t ≠ "" from ht)]
          rw [ih]
          simp [streamTexts, collectCalls, hT, hF, ht]
          omega
        | some fcs =>
          simp only [streamLoop, hsig, Bool.false_eq_true, if_false, hT, hF,
            if_pos (show t ≠ "" from ht)]
          rw [ih]
          simp [streamTexts, collectCalls, hT, hF, ht]
          omega

open CliModel in
/-- Helper: if the abort signal is first observed set at the check made
after `N` chunks have been processed, and the stream still has a chunk
`N + 1`, the stream loop stops there: it writes only the texts of the
first `N` chunks, reports cancellation on standard error, and returns
`none` (no accumulated calls are handed to the dispatcher). -/
theorem streamLoop_abort (env : Env) :
    ∀ (N : Nat) (chunks : List GenResponse) (st : RunState) (acc : List FunctionCall),
      (∀ k, k < N → env.sigAborted (st.chunksProcessed + k) = false) →
      env.sigAborted (st.chunksProcessed + N) = true →
      N < chunks.length →
      streamLoop env chunks st acc =
        ({ st with stdout := st.stdout ++ streamTexts (chunks.take N),
                   chunksProcessed := st.chunksProcessed + N,
                   stderr := st.stderr ++ ["Operation cancelled."] }, none) := by
  intro N
  induction N with
  | zero =>
    intro chunks st acc hfalse htrue hlen
    cases chunks with
    | nil => simp at hlen
    | cons c rest =>
      have hs : env.sigAborted st.chunksProcessed = true := by simpa using htrue
      simp [streamLoop, hs, streamTexts]
  | succ N ih =>
    intro chunks st acc hfalse htrue hlen
    cases chunks with
    | nil => simp at hlen
    | cons c rest =>
      have hs : env.sigAborted st.chunksProcessed = false := by
        have := hfalse 0 (Nat.succ_pos N)
        simpa using this
      have hlen' : N < rest.length := by
        simpa using Nat.lt_of_succ_lt_succ hlen
      cases hT : getResponseText c with
      | none =>
        simp only [streamLoop, hs, Bool.false_eq_true, if_false, hT]
        rw [ih rest _ _ ?hf ?ht hlen']
        case hf =>
          intro k hk
          have := hfalse (k + 1) (Nat.succ_lt_succ hk)
          simpa [Nat.add_assoc, Nat.add_comm 1 k] using this
        case ht =>
          simpa [Nat.add_assoc, Nat.add_comm 1 N] using htrue
        simp [streamTexts, hT]
        omega
      | some t =>
        by_cases ht : t = ""
        · subst ht
          simp only [streamLoop, hs, Bool.false_eq_true, if_false, hT,
            ne_eq, not_true_eq_false, if_false]
          rw [ih rest _ _ ?hf2 ?ht2 hlen']
          case hf2 =>
            intro k hk
            have := hfalse (k + 1) (Nat.succ_lt_succ hk)
            simpa [Nat.add_assoc, Nat.add_comm 1 k] using this
          case ht2 =>
            simpa [Nat.add_assoc, Nat.add_comm 1 N] using htrue
          simp [streamTexts, hT]
          omega
        · simp only [streamLoop, hs, Bool.false_eq_true, if_false, hT,
            if_pos (show t ≠ "" from ht)]
          rw [ih rest _ _ ?hf3 ?ht3 hlen']
          case hf3 =>
            intro k hk
            have := hfalse (k + 1) (Nat.succ_lt_succ hk)
            simpa [Nat.add_assoc, Nat.add_comm 1 k] using this
          case ht3 =>
            simpa [Nat.add_assoc, Nat.add_comm 1 N] using htrue
          simp [streamTexts, hT, ht]
          omega

open CliModel in
/-- Helper: regardless of the dispatcher's answer, one dispatch appends
exactly its request to the dispatch trace, advances the clock-read
counter as `advanceClock`, and leaves the chunk and pass counters and
(by append only) the output streams intact. -/
theorem dispatchOne_components (env : Env) (fc : FunctionCall) (st : RunState) :
    (dispatchOne env fc st).1.dispatched = st.dispatched ++ [requestOf env fc st.clockCalls] ∧
    (dispatchOne env fc st).1.clockCalls = advanceClock [fc] st.clockCalls ∧
    (dispatchOne env fc st).1.chunksProcessed = st.chunksProcessed ∧
    (dispatchOne env fc st).1.passes = st.passes ∧
    (∃ mid, (dispatchOne env fc st).1.stderr = st.stderr ++ mid) ∧
    (∃ out, (dispatchOne env fc st).1.stdout = st.stdout ++ out) := by
  cases hid : fc.id with
  | none =>
    cases herr : (env.dispatch (requestOf env fc st.clockCalls)).error with
    | none =>
      refine ⟨?_, ?_, ?_, ?_, ?_, ?_⟩ <;>
        simp [dispatchOne, hid, herr, advanceClock]
    | some e =>
      by_cases hnf : strIncludes e.message "not found in registry" = true <;>
        refine ⟨?_, ?_, ?_, ?_, ?_, ?_⟩ <;>
          simp [dispatchOne, hid, herr, advanceClock, hnf]
  | some i =>
    cases herr : (env.dispatch (requestOf env fc st.clockCalls)).error with
    | none =>
      refine ⟨?_, ?_, ?_, ?_, ?_, ?_⟩ <;>
        simp [dispatchOne, hid, herr, advanceClock]
    | some e =>
      by_cases hnf : strIncludes e.message "not found in registry" = true <;>
        refine ⟨?_, ?_, ?_, ?_, ?_, ?_⟩ <;>
          simp [dispatchOne, hid, herr, advanceClock, hnf]

open CliModel in
/-- Helper: a non-fatal response (no error, or a not-found error) makes
one dispatch return the normalized `responseParts` instead of exiting. -/
theorem dispatchOne_nonFatal_snd (env : Env) (fc : FunctionCall) (st : RunState)
    (h : nonFatalResponse (env.dispatch (requestOf env fc st.clockCalls)) = true) :
    (dispatchOne env fc st).2 =
      some (normalizeResponseParts
        (env.dispatch (requestOf env fc st.clockCalls)).responseParts) := by
  cases hid : fc.id with
  | none =>
    cases herr : (env.dispatch (requestOf env fc st.clockCalls)).error with
    | none => simp [dispatchOne, hid, herr]
    | some e =>
      have hnf : strIncludes e.message "not found in registry" = true := by
        simpa [nonFatalResponse, herr] using h
      simp [dispatchOne, hid, herr, hnf]
  | some i =>
    cases herr : (env.dispatch (requestOf env fc st.clockCalls)).error with
    | none => simp [dispatchOne, hid, herr]
    | some e =>
      have hnf : strIncludes e.message "not found in registry" = true := by
        simpa [nonFatalResponse, herr] using h
      simp [dispatchOne, hid, herr, hnf]

open CliModel in
/-- Helper: an error-free response writes nothing to standard error. -/
theorem dispatchOne_noError_stderr (env : Env) (fc : FunctionCall) (st : RunState)
    (h : (env.dispatch (requestOf env fc st.clockCalls)).error = none) :
    (dispatchOne env fc st).1.stderr = st.stderr := by
  cases hid : fc.id <;> simp [dispatchOne, hid, h]

open CliModel in
/-- Helper: an errored response (fatal or not) is reported: the standard
error gains exactly the `Error executing tool` line, and standard output
gains the `start` event followed by the `error` observability event. -/
theorem dispatchOne_error_reported (env : Env) (fc : FunctionCall) (st : RunState)
    (e : ErrorObj)
    (herr : (env.dispatch (requestOf env fc st.clockCalls)).error = some e) :
    (dispatchOne env fc st).1.stderr = st.stderr ++
      ["Error executing tool " ++ fc.name ++ ": " ++
        rdOrErr (env.dispatch (requestOf env fc st.clockCalls)).resultDisplay e.message] ∧
    (dispatchOne env fc st).1.stdout = st.stdout ++
      displayToolCallInfo (env.localeTime st.timeCalls) fc.name (fc.args.getD [])
        .start none none ++
      displayToolCallInfo (env.localeTime (st.timeCalls + 1)) fc.name (fc.args.getD [])
        .error none
        (some (errDisplayMessage (env.dispatch (requestOf env fc st.clockCalls)) e.message)) := by
  cases hid : fc.id with
  | none =>
    by_cases hnf : strIncludes e.message "not found in registry" = true <;>
      constructor <;> simp [dispatchOne, hid, herr, hnf]
  | some i =>
    by_cases hnf : strIncludes e.message "not found in registry" = true <;>
      constructor <;> simp [dispatchOne, hid, herr, hnf]

open CliModel in
/-- Helper: a fatal response (error present, not a not-found error)
makes one dispatch reach `process.exit(1)`: the result is `none`. -/
theorem dispatchOne_fatal_snd (env : Env) (fc : FunctionCall) (st : RunState)
    (e : ErrorObj)
    (herr : (env.dispatch (requestOf env fc st.clockCalls)).error = some e)
    (hnf : strIncludes e.message "not found in registry" = false) :
    (dispatchOne env fc st).2 = none := by
  cases hid : fc.id <;> simp [dispatchOne, hid, herr, hnf]

open CliModel in
/-- Helper: unfolding `requestsOf` on a cons in terms of `advanceClock`. -/
theorem requestsOf_cons (env : Env) (fc : FunctionCall) (rest : List FunctionCall)
    (c : Nat) :
    requestsOf env (fc :: rest) c =
      requestOf env fc c :: requestsOf env rest (advanceClock [fc] c) := by
  cases hfc : fc.id <;> simp [requestsOf, advanceClock, hfc]

open CliModel in
/-- Helper: the requests are in one-to-one positional correspondence
with the accumulated calls (same names, same order). -/
theorem requestsOf_names (env : Env) :
    ∀ (calls : List FunctionCall) (c : Nat),
      (requestsOf env calls c).map ToolCallRequestInfo.name =
        calls.map FunctionCall.name := by
  intro calls
  induction calls with
  | nil => intro c; simp [requestsOf]
  | cons fc rest ih =>
    intro c
    rw [requestsOf_cons]
    simp [requestOf, ih]

open CliModel in
/-- Helper: `requestsOf` distributes over list append. -/
theorem requestsOf_append (env : Env) :
    ∀ (xs ys : List FunctionCall) (c : Nat),
      requestsOf env (xs ++ ys) c =
        requestsOf env xs c ++ requestsOf env ys (advanceClock xs c) := by
  intro xs
  induction xs with
  | nil => intro ys c; simp [requestsOf, advanceClock]
  | cons fc rest ih =>
    intro ys c
    rw [List.cons_append, requestsOf_cons, requestsOf_cons, ih]
    simp [advanceClock]

open CliModel in
/-- Helper: `advanceClock` distributes over list append. -/
theorem advanceClock_append :
    ∀ (xs ys : List FunctionCall) (c : Nat),
      advanceClock (xs ++ ys) c = advanceClock ys (advanceClock xs c) := by
  intro xs
  induction xs with
  | nil => intro ys c; simp [advanceClock]
  | cons fc rest ih =>
    intro ys c
    simp [advanceClock, ih]

open CliModel in
/-- Helper: when every dispatched request gets a non-fatal response, the
dispatch loop runs every accumulated call in order: the dispatch trace
gains exactly the requests in arrival order, the returned parts are the
input parts followed by each call's normalized `responseParts` in that
same order, and the chunk and pass counters are untouched. -/
theorem dispatchCalls_eq (env : Env) :
    ∀ (calls : List FunctionCall) (st : RunState) (parts : List RPart),
      (∀ r ∈ requestsOf env calls st.clockCalls, nonFatalResponse (env.dispatch r) = true) →
      (dispatchCalls env calls st parts).2 =
        some (parts ++ (requestsOf env calls st.clockCalls).flatMap
          fun r => normalizeResponseParts (env.dispatch r).responseParts) ∧
      (dispatchCalls env calls st parts).1.dispatched =
        st.dispatched ++ requestsOf env calls st.clockCalls ∧
      (dispatchCalls env calls st parts).1.passes = st.passes ∧
      (dispatchCalls env calls st parts).1.chunksProcessed = st.chunksProcessed ∧
      (∃ mid, (dispatchCalls env calls st parts).1.stderr = st.stderr ++ mid) := by
  intro calls
  induction calls with
  | nil =>
    intro st parts h
    refine ⟨by simp [dispatchCalls, requestsOf], by simp [dispatchCalls, requestsOf],
      rfl, rfl, ⟨[], by simp [dispatchCalls]⟩⟩
  | cons fc rest ih =>
    intro st parts h
    have hnf : nonFatalResponse (env.dispatch (requestOf env fc st.clockCalls)) = true :=
      h _ (by rw [requestsOf_cons]; exact List.mem_cons_self _ _)
    obtain ⟨hdisp, hclock, hchunks, hpasses, ⟨mid1, hstderr⟩, ⟨out1, hstdout⟩⟩ :=
      dispatchOne_components env fc st
    have hsnd := dispatchOne_nonFatal_snd env fc st hnf
    rcases hDO : dispatchOne env fc st with ⟨st1, res⟩
    rw [hDO] at hdisp hclock hchunks hpasses hstderr hsnd
    simp only at hdisp hclock hchunks hpasses hstderr hsnd
    subst hsnd
    have hrest : ∀ r ∈ requestsOf env rest st1.clockCalls,
        nonFatalResponse (env.dispatch r) = true := by
      intro r hr
      apply h
      rw [requestsOf_cons]
      rw [hclock] at hr
      exact List.mem_cons_of_mem _ hr
    obtain ⟨ih1, ih2, ih3, ih4, ⟨mid2, ih5⟩⟩ := ih st1
      (parts ++ normalizeResponseParts
        (env.dispatch (requestOf env fc st.clockCalls)).responseParts) hrest
    have hstep : dispatchCalls env (fc :: rest) st parts =
        dispatchCalls env rest st1
          (parts ++ normalizeResponseParts
            (env.dispatch (requestOf env fc st.clockCalls)).responseParts) := by
      simp [dispatchCalls, hDO]
    rw [hstep]
    refine ⟨?_, ?_, ?_, ?_, ?_⟩
    · rw [ih1, hclock, requestsOf_cons]
      simp
    · rw [ih2, hdisp, hclock, requestsOf_cons]
      simp
    · rw [ih3, hpasses]
    · rw [ih4, hchunks]
    · exact ⟨mid1 ++ mid2, by rw [ih5, hstderr, List.append_assoc]⟩

open CliModel in
/-- Helper: when every dispatched request succeeds outright (no error
at all), the dispatch loop writes nothing to standard error. -/
theorem dispatchCalls_noError_stderr (env : Env) :
    ∀ (calls : List FunctionCall) (st : RunState) (parts : List RPart),
      (∀ r ∈ requestsOf env calls st.clockCalls, (env.dispatch r).error = none) →
      (dispatchCalls env calls st parts).1.stderr = st.stderr := by
  intro calls
  induction calls with
  | nil => intro st parts h; simp [dispatchCalls]
  | cons fc rest ih =>
    intro st parts h
    have hne : (env.dispatch (requestOf env fc st.clockCalls)).error = none :=
      h _ (by rw [requestsOf_cons]; exact List.mem_cons_self _ _)
    have hnf : nonFatalResponse (env.dispatch (requestOf env fc st.clockCalls)) = true := by
      simp [nonFatalResponse, hne]
    obtain ⟨hdisp, hclock, hchunks, hpasses, _, _⟩ := dispatchOne_components env fc st
    have hsnd := dispatchOne_nonFatal_snd env fc st hnf
    have hstderr1 := dispatchOne_noError_stderr env fc st hne
    rcases hDO : dispatchOne env fc st with ⟨st1, res⟩
    rw [hDO] at hclock hsnd hstderr1
    simp only at hclock hsnd hstderr1
    subst hsnd
    have hstep : dispatchCalls env (fc :: rest) st parts =
        dispatchCalls env rest st1
          (parts ++ normalizeResponseParts
            (env.dispatch (requestOf env fc st.clockCalls)).responseParts) := by
      simp [dispatchCalls, hDO]
    rw [hstep, ih st1 _ ?hrest, hstderr1]
    case hrest =>
      intro r hr
      apply h
      rw [requestsOf_cons]
      rw [hclock] at hr
      exact List.mem_cons_of_mem _ hr

open CliModel in
/-- Helper: the dispatch loop only ever appends to the output streams. -/
theorem dispatchCalls_mono (env : Env) :
    ∀ (calls : List FunctionCall) (st : RunState) (parts : List RPart),
      (∃ out, (dispatchCalls env calls st parts).1.stdout = st.stdout ++ out) ∧
      (∃ mid, (dispatchCalls env calls st parts).1.stderr = st.stderr ++ mid) := by
  intro calls
  induction calls with
  | nil => intro st parts; exact ⟨⟨[], by simp [dispatchCalls]⟩, ⟨[], by simp [dispatchCalls]⟩⟩
  | cons fc rest ih =>
    intro st parts
    obtain ⟨_, _, _, _, ⟨mid1, hstderr1⟩, ⟨out1, hstdout1⟩⟩ := dispatchOne_components env fc st
    rcases hDO : dispatchOne env fc st with ⟨st1, res⟩
    rw [hDO] at hstderr1 hstdout1
    simp only at hstderr1 hstdout1
    cases res with
    | none =>
      have hstep : dispatchCalls env (fc :: rest) st parts = (st1, none) := by
        simp [dispatchCalls, hDO]
      rw [hstep]
      exact ⟨⟨out1, hstdout1⟩, ⟨mid1, hstderr1⟩⟩
    | some np =>
      have hstep : dispatchCalls env (fc :: rest) st parts =
          dispatchCalls env rest st1 (parts ++ np) := by
        simp [dispatchCalls, hDO]
      rw [hstep]
      obtain ⟨⟨out2, h2⟩, ⟨mid2, h3⟩⟩ := ih st1 (parts ++ np)
      exact ⟨⟨out1 ++ out2, by rw [h2, hstdout1, List.append_assoc]⟩,
        ⟨mid1 ++ mid2, by rw [h3, hstderr1, List.append_assoc]⟩⟩

open CliModel in
/-- Helper: when the calls before `fc` all get non-fatal responses and
`fc`'s response carries an error not mentioning "not found in registry",
the dispatch loop reaches `process.exit(1)` at `fc`: the result is
`none`, the dispatch trace ends at `fc`'s request (nothing after `fc`
is dispatched), and the standard error ends with `fc`'s error line. -/
theorem dispatchCalls_fatal (env : Env) :
    ∀ (pre : List FunctionCall) (fc : FunctionCall) (rest : List FunctionCall)
      (st : RunState) (parts : List RPart) (e : ErrorObj),
      (∀ r ∈ requestsOf env pre st.clockCalls, nonFatalResponse (env.dispatch r) = true) →
      (env.dispatch (requestOf env fc (advanceClock pre st.clockCalls))).error = some e →
      strIncludes e.message "not found in registry" = false →
      (dispatchCalls env (pre ++ fc :: rest) st parts).2 = none ∧
      (dispatchCalls env (pre ++ fc :: rest) st parts).1.dispatched =
        st.dispatched ++ requestsOf env pre st.clockCalls ++
          [requestOf env fc (advanceClock pre st.clockCalls)] ∧
      ∃ mid, (dispatchCalls env (pre ++ fc :: rest) st parts).1.stderr =
        st.stderr ++ mid ++
          ["Error executing tool " ++ fc.name ++ ": " ++
            rdOrErr
              (env.dispatch (requestOf env fc (advanceClock pre st.clockCalls))).resultDisplay
              e.message] := by
  intro pre
  induction pre with
  | nil =>
    intro fc rest st parts e hpre herr hnf
    simp only [advanceClock] at herr ⊢
    obtain ⟨hdisp, hclock, hchunks, hpasses, _, _⟩ := dispatchOne_components env fc st
    have hsnd := dispatchOne_fatal_snd env fc st e herr hnf
    obtain ⟨hstderr, hstdout⟩ := dispatchOne_error_reported env fc st e herr
    rcases hDO : dispatchOne env fc st with ⟨st1, res⟩
    rw [hDO] at hdisp hsnd hstderr
    simp only at hdisp hsnd hstderr
    subst hsnd
    have hstep : dispatchCalls env (([] : List FunctionCall) ++ fc :: rest) st parts =
        (st1, none) := by
      simp [dispatchCalls, hDO]
    rw [hstep]
    refine ⟨rfl, ?_, ⟨[], ?_⟩⟩
    · simpa [requestsOf] using hdisp
    · simpa using hstderr
  | cons p pre ih =>
    intro fc rest st parts e hpre herr hnf
    have hnfp : nonFatalResponse (env.dispatch (requestOf env p st.clockCalls)) = true :=
      hpre _ (by rw [requestsOf_cons]; exact List.mem_cons_self _ _)
    obtain ⟨hdisp, hclock, hchunks, hpasses, ⟨mid1, hstderr1⟩, _⟩ :=
      dispatchOne_components env p st
    have hsnd := dispatchOne_nonFatal_snd env p st hnfp
    rcases hDO : dispatchOne env p st with ⟨st1, res⟩
    rw [hDO] at hdisp hclock hstderr1 hsnd
    simp only at hdisp hclock hstderr1 hsnd
    subst hsnd
    have hstep : dispatchCalls env ((p :: pre) ++ fc :: rest) st parts =
        dispatchCalls env (pre ++ fc :: rest) st1
          (parts ++ normalizeResponseParts
            (env.dispatch (requestOf env p st.clockCalls)).responseParts) := by
      simp [dispatchCalls, hDO]
    have hadv : advanceClock (p :: pre) st.clockCalls = advanceClock pre st1.clockCalls := by
      rw [hclock]
      have := advanceClock_append [p] pre st.clockCalls
      simpa using this
    have hpre' : ∀ r ∈ requestsOf env pre st1.clockCalls,
        nonFatalResponse (env.dispatch r) = true := by
      intro r hr
      apply hpre
      rw [requestsOf_cons]
      rw [hclock] at hr
      exact List.mem_cons_of_mem _ hr
    have herr' :
        (env.dispatch (requestOf env fc (advanceClock pre st1.clockCalls))).error = some e := by
      rw [← hadv]
      exact herr
    obtain ⟨c1, c2, ⟨mid2, c3⟩⟩ := ih fc rest st1
      (parts ++ normalizeResponseParts
        (env.dispatch (requestOf env p st.clockCalls)).responseParts) e hpre' herr' hnf
    rw [hstep]
    refine ⟨c1, ?_, ⟨mid1 ++ mid2, ?_⟩⟩
    · rw [c2, hdisp, hadv, requestsOf_cons, ← hclock]
      simp
    · rw [c3, hstderr1, hadv]
      simp

open CliModel in
/-- Helper: when every response in the turn is non-fatal and the call
`fc` (preceded by `pre`) gets an errored response, the dispatch loop
still reports it: the `Error executing tool` line appears on standard
error and the `error` observability event appears on standard output,
at `fc`'s position in the sequence. -/
theorem dispatchCalls_notfound_report (env : Env) :
    ∀ (pre : List FunctionCall) (fc : FunctionCall) (rest : List FunctionCall)
      (st : RunState) (parts : List RPart) (e : ErrorObj),
      (∀ r ∈ requestsOf env (pre ++ fc :: rest) st.clockCalls,
        nonFatalResponse (env.dispatch r) = true) →
      (env.dispatch (requestOf env fc (advanceClock pre st.clockCalls))).error = some e →
      (∃ mid1 mid2, (dispatchCalls env (pre ++ fc :: rest) st parts).1.stderr =
        st.stderr ++ mid1 ++
          ["Error executing tool " ++ fc.name ++ ": " ++
            rdOrErr
              (env.dispatch (requestOf env fc (advanceClock pre st.clockCalls))).resultDisplay
              e.message] ++ mid2) ∧
      (∃ ts out1 out2, (dispatchCalls env (pre ++ fc :: rest) st parts).1.stdout =
        st.stdout ++ out1 ++
          displayToolCallInfo ts fc.name (fc.args.getD []) .error none
            (some (errDisplayMessage
              (env.dispatch (requestOf env fc (advanceClock pre st.clockCalls)))
              e.message)) ++ out2) := by
  intro pre
  induction pre with
  | nil =>
    intro fc rest st parts e hall herr
    simp only [advanceClock] at herr ⊢
    have hnffc : nonFatalResponse (env.dispatch (requestOf env fc st.clockCalls)) = true :=
      hall _ (by rw [List.nil_append, requestsOf_cons]; exact List.mem_cons_self _ _)
    have hsnd := dispatchOne_nonFatal_snd env fc st hnffc
    obtain ⟨hstderr, hstdout⟩ := dispatchOne_error_reported env fc st e herr
    rcases hDO : dispatchOne env fc st with ⟨st1, res⟩
    rw [hDO] at hsnd hstderr hstdout
    simp only at hsnd hstderr hstdout
    subst hsnd
    have hstep : dispatchCalls env (([] : List FunctionCall) ++ fc :: rest) st parts =
        dispatchCalls env rest st1
          (parts ++ normalizeResponseParts
            (env.dispatch (requestOf env fc st.clockCalls)).responseParts) := by
      simp [dispatchCalls, hDO]
    rw [hstep]
    obtain ⟨⟨out2, hout2⟩, ⟨mid2, hmid2⟩⟩ := dispatchCalls_mono env rest st1
      (parts ++ normalizeResponseParts
        (env.dispatch (requestOf env fc st.clockCalls)).responseParts)
    constructor
    · exact ⟨[], mid2, by rw [hmid2, hstderr]; try simp⟩
    · exact ⟨env.localeTime (st.timeCalls + 1),
        displayToolCallInfo (env.localeTime st.timeCalls) fc.name (fc.args.getD [])
          .start none none, out2,
        by rw [hout2, hstdout]; try simp⟩
  | cons p pre ih =>
    intro fc rest st parts e hall herr
    have hnfp : nonFatalResponse (env.dispatch (requestOf env p st.clockCalls)) = true :=
      hall _ (by rw [List.cons_append, requestsOf_cons]; exact List.mem_cons_self _ _)
    obtain ⟨hdisp, hclock, hchunks, hpasses, ⟨mid1, hstderr1⟩, ⟨out1, hstdout1⟩⟩ :=
      dispatchOne_components env p st
    have hsnd := dispatchOne_nonFatal_snd env p st hnfp
    rcases hDO : dispatchOne env p st with ⟨st1, res⟩
    rw [hDO] at hclock hstderr1 hstdout1 hsnd
    simp only at hclock hstderr1 hstdout1 hsnd
    subst hsnd
    have hstep : dispatchCalls env ((p :: pre) ++ fc :: rest) st parts =
        dispatchCalls env (pre ++ fc :: rest) st1
          (parts ++ normalizeResponseParts
            (env.dispatch (requestOf env p st.clockCalls)).responseParts) := by
      simp [dispatchCalls, hDO]
    have hadv : advanceClock (p :: pre) st.clockCalls = advanceClock pre st1.clockCalls := by
      rw [hclock]
      have := advanceClock_append [p] pre st.clockCalls
      simpa using this
    have hall' : ∀ r ∈ requestsOf env (pre ++ fc :: rest) st1.clockCalls,
        nonFatalResponse (env.dispatch r) = true := by
      intro r hr
      apply hall
      rw [List.cons_append, requestsOf_cons]
      rw [hclock] at hr
      exact List.mem_cons_of_mem _ hr
    have herr' :
        (env.dispatch (requestOf env fc (advanceClock pre st1.clockCalls))).error = some e := by
      rw [← hadv]
      exact herr
    obtain ⟨⟨m1, m2, hm⟩, ⟨ts, o1, o2, ho⟩⟩ := ih fc rest st1
      (parts ++ normalizeResponseParts
        (env.dispatch (requestOf env p st.clockCalls)).responseParts) e hall' herr'
    rw [hstep]
    constructor
    · refine ⟨mid1 ++ m1, m2, ?_⟩
      rw [hm, hstderr1, hadv]
      simp
    · refine ⟨ts, out1 ++ o1, o2, ?_⟩
      rw [ho, hstdout1, hadv]
      simp

open CliModel in
/-- Helper: one unfolding of the turn loop when the turn budget is not
exceeded: increment the turn count, stream, then dispatch or stop. -/
theorem runLoop_step (env : Env) (fuel : Nat) (msgs : List ContentMsg) (tc : Nat)
    (st : RunState)
    (hbudget : ¬(env.maxSessionTurns > 0 ∧ ((tc + 1 : Nat) : Int) > env.maxSessionTurns)) :
    runLoop env (fuel + 1) msgs tc st =
      match streamLoop env (env.stream (tc + 1) (msgPartsOf msgs))
          { st with passes := st.passes + 1 } [] with
      | (st1, none) => (st1, .cancelled)
      | (st1, some functionCalls) =>
        if functionCalls.length > 0 then
          match dispatchCalls env functionCalls st1 [] with
          | (st2, none) => (st2, .fatalToolError)
          | (st2, some toolResponseParts) =>
            runLoop env fuel [{ role := "user", parts := toolResponseParts }] (tc + 1) st2
        else ({ st1 with stdout := st1.stdout ++ ["\n"] }, .completed) := by
  rw [runLoop, if_neg hbudget]

open CliModel in
/-- C4: if the cancellation signal is first observed set at the check
made after `N` chunks of the turn's stream have been processed (and the
stream has a chunk `N + 1`), the driver halts there: only the texts of
the first `N` chunks are written, no function call from that stream is
dispatched (the dispatch trace is unchanged), cancellation is reported
on standard error, and the loop stops with the `cancelled` outcome. -/
theorem claim_C4 (env : Env) (fuel : Nat) (msgs : List ContentMsg) (tc : Nat)
    (st : RunState) (N : Nat)
    (hbudget : ¬(env.maxSessionTurns > 0 ∧ ((tc + 1 : Nat) : Int) > env.maxSessionTurns))
    (hfalse : ∀ k, k < N → env.sigAborted (st.chunksProcessed + k) = false)
    (htrue : env.sigAborted (st.chunksProcessed + N) = true)
    (hlen : N < (env.stream (tc + 1) (msgPartsOf msgs)).length) :
    runLoop env (fuel + 1) msgs tc st =
      ({ st with passes := st.passes + 1,
                 stdout := st.stdout ++
                   streamTexts ((env.stream (tc + 1) (msgPartsOf msgs)).take N),
                 chunksProcessed := st.chunksProcessed + N,
                 stderr := st.stderr ++ ["Operation cancelled."] }, .cancelled) := by
  rw [runLoop_step env fuel msgs tc st hbudget,
    streamLoop_abort env N (env.stream (tc + 1) (msgPartsOf msgs))
      { st with passes := st.passes + 1 } [] hfalse htrue hlen]

open CliModel in
/-- C4 witness: with a two-chunk stream and the signal set after one
chunk, only the first chunk's text is written, nothing is dispatched,
and the run is cancelled. -/
theorem claim_C4_witness :
    (∀ k, k < 1 → envAbort.sigAborted (({} : RunState).chunksProcessed + k) = false) ∧
    envAbort.sigAborted (({} : RunState).chunksProcessed + 1) = true ∧
    runLoop envAbort (0 + 1) [] 0 {} =
      ({ stdout := ["A"], stderr := ["Operation cancelled."], dispatched := [],
         chunksProcessed := 1, clockCalls := 0, timeCalls := 0, passes := 1 },
       .cancelled) := by
  have hf : ∀ k, k < 1 → envAbort.sigAborted (({} : RunState).chunksProcessed + k) = false := by
    intro k hk
    interval_cases k
    rfl
  refine ⟨hf, rfl, ?_⟩
  have h := claim_C4 envAbort 0 [] 0 {} 1 (by decide) hf rfl (by decide)
  rw [h]
  rfl

open CliModel in
/-- C2: when an accumulated call `fc` (preceded by calls `pre` whose
responses are non-fatal) gets an error whose message does not contain
"not found in registry", the run terminates with the non-zero-exit
outcome immediately after reporting that error: the dispatch trace ends
at `fc`'s request (none of the remaining accumulated calls in the turn
is dispatched) and the standard error ends with `fc`'s error line. -/
theorem claim_C2 (env : Env) (fuel : Nat) (msgs : List ContentMsg) (tc : Nat)
    (st : RunState) (pre : List FunctionCall) (fc : FunctionCall)
    (rest : List FunctionCall) (e : ErrorObj)
    (hbudget : ¬(env.maxSessionTurns > 0 ∧ ((tc + 1 : Nat) : Int) > env.maxSessionTurns))
    (hsig : ∀ k, env.sigAborted k = false)
    (hcalls : collectCalls (env.stream (tc + 1) (msgPartsOf msgs)) = pre ++ fc :: rest)
    (hpre : ∀ r ∈ requestsOf env pre st.clockCalls, nonFatalResponse (env.dispatch r) = true)
    (herr : (env.dispatch (requestOf env fc (advanceClock pre st.clockCalls))).error = some e)
    (hnf : strIncludes e.message "not found in registry" = false) :
    (runLoop env (fuel + 1) msgs tc st).2 = .fatalToolError ∧
    (runLoop env (fuel + 1) msgs tc st).1.dispatched =
      st.dispatched ++ requestsOf env pre st.clockCalls ++
        [requestOf env fc (advanceClock pre st.clockCalls)] ∧
    ∃ mid, (runLoop env (fuel + 1) msgs tc st).1.stderr =
      st.stderr ++ mid ++
        ["Error executing tool " ++ fc.name ++ ": " ++
          rdOrErr (env.dispatch (requestOf env fc (advanceClock pre st.clockCalls))).resultDisplay
            e.message] := by
  have hstream : streamLoop env (env.stream (tc + 1) (msgPartsOf msgs))
      { st with passes := st.passes + 1 } [] =
      (streamedState env (tc + 1) msgs st, some (pre ++ fc :: rest)) := by
    have h := streamLoop_no_abort env hsig (env.stream (tc + 1) (msgPartsOf msgs))
      { st with passes := st.passes + 1 } []
    rw [List.nil_append, hcalls] at h
    exact h
  obtain ⟨c1, c2, ⟨mid, c3⟩⟩ := dispatchCalls_fatal env pre fc rest
    (streamedState env (tc + 1) msgs st) [] e hpre herr hnf
  rcases hDC : dispatchCalls env (pre ++ fc :: rest)
      (streamedState env (tc + 1) msgs st) [] with ⟨st2, r2⟩
  rw [hDC] at c1 c2 c3
  simp only at c1 c2 c3
  subst c1
  have hrun : runLoop env (fuel + 1) msgs tc st = (st2, .fatalToolError) := by
    rw [runLoop_step env fuel msgs tc st hbudget, hstream]
    show (if (pre ++ fc :: rest).length > 0 then _ else _) = _
    rw [if_pos (by simp), hDC]
  rw [hrun]
  exact ⟨rfl, c2, ⟨mid, c3⟩⟩

open CliModel in
/-- C2 witness: a dispatcher answering "boom" makes the run end with the
fatal outcome after dispatching exactly the one offending call and
reporting its error line. -/
theorem claim_C2_witness :
    (runLoop envFatal (0 + 1) [] 0 {}).2 = .fatalToolError ∧
    (runLoop envFatal (0 + 1) [] 0 {}).1.dispatched =
      [{ callId := "ls-0", name := "ls", args := [], isClientInitiated := false,
         prompt_id := "p" }] ∧
    ∃ mid, (runLoop envFatal (0 + 1) [] 0 {}).1.stderr =
      [] ++ mid ++ ["Error executing tool ls: boom"] := by
  have h := claim_C2 envFatal 0 [] 0 {} [] ⟨none, "ls", none⟩ [] ⟨"boom"⟩
    (by decide) (fun _ => rfl) rfl
    (by intro r hr; simp [requestsOf] at hr) rfl (by decide)
  exact ⟨h.1, h.2.1, h.2.2⟩

open CliModel in
/-- C1: when an accumulated call `fc` gets an error whose message
contains "not found in registry" (and every response in the turn is
non-fatal), the process does not terminate: the error is reported both
as an `error` observability event on standard output and as a line on
standard error, every call's normalized `responseParts` (including
`fc`'s, at its position) is appended, and the loop proceeds to the next
turn with the synthesized user-role result turn. -/
theorem claim_C1 (env : Env) (fuel : Nat) (msgs : List ContentMsg) (tc : Nat)
    (st : RunState) (pre : List FunctionCall) (fc : FunctionCall)
    (rest : List FunctionCall) (e : ErrorObj)
    (hbudget : ¬(env.maxSessionTurns > 0 ∧ ((tc + 1 : Nat) : Int) > env.maxSessionTurns))
    (hsig : ∀ k, env.sigAborted k = false)
    (hcalls : collectCalls (env.stream (tc + 1) (msgPartsOf msgs)) = pre ++ fc :: rest)
    (hall : ∀ r ∈ requestsOf env (pre ++ fc :: rest) st.clockCalls,
      nonFatalResponse (env.dispatch r) = true)
    (herr : (env.dispatch (requestOf env fc (advanceClock pre st.clockCalls))).error = some e)
    (hmsg : strIncludes e.message "not found in registry" = true) :
    runLoop env (fuel + 1) msgs tc st =
      runLoop env fuel
        [{ role := "user",
           parts := (requestsOf env (pre ++ fc :: rest) st.clockCalls).flatMap
             fun r => normalizeResponseParts (env.dispatch r).responseParts }]
        (tc + 1)
        (dispatchCalls env (pre ++ fc :: rest) (streamedState env (tc + 1) msgs st) []).1 ∧
    (∃ mid1 mid2,
      (dispatchCalls env (pre ++ fc :: rest)
          (streamedState env (tc + 1) msgs st) []).1.stderr =
        st.stderr ++ mid1 ++
          ["Error executing tool " ++ fc.name ++ ": " ++
            rdOrErr (env.dispatch (requestOf env fc (advanceClock pre st.clockCalls))).resultDisplay
              e.message] ++ mid2) ∧
    (∃ ts out1 out2,
      (dispatchCalls env (pre ++ fc :: rest)
          (streamedState env (tc + 1) msgs st) []).1.stdout =
        (streamedState env (tc + 1) msgs st).stdout ++ out1 ++
          displayToolCallInfo ts fc.name (fc.args.getD []) .error none
            (some (errDisplayMessage
              (env.dispatch (requestOf env fc (advanceClock pre st.clockCalls))) e.message)) ++
          out2) := by
  have hstream : streamLoop env (env.stream (tc + 1) (msgPartsOf msgs))
      { st with passes := st.passes + 1 } [] =
      (streamedState env (tc + 1) msgs st, some (pre ++ fc :: rest)) := by
    have h := streamLoop_no_abort env hsig (env.stream (tc + 1) (msgPartsOf msgs))
      { st with passes := st.passes + 1 } []
    rw [List.nil_append, hcalls] at h
    exact h
  obtain ⟨c1, -, -, -, -⟩ := dispatchCalls_eq env (pre ++ fc :: rest)
    (streamedState env (tc + 1) msgs st) [] hall
  obtain ⟨crep1, crep2⟩ := dispatchCalls_notfound_report env pre fc rest
    (streamedState env (tc + 1) msgs st) [] e hall herr
  refine ⟨?_, crep1, crep2⟩
  rw [runLoop_step env fuel msgs tc st hbudget, hstream]
  show (if (pre ++ fc :: rest).length > 0 then _ else _) = _
  rw [if_pos (by simp)]
  have hpair : dispatchCalls env (pre ++ fc :: rest) (streamedState env (tc + 1) msgs st) [] =
      ((dispatchCalls env (pre ++ fc :: rest) (streamedState env (tc + 1) msgs st) []).1,
       some ([] ++ (requestsOf env (pre ++ fc :: rest)
         (streamedState env (tc + 1) msgs st).clockCalls).flatMap
           fun r => normalizeResponseParts (env.dispatch r).responseParts)) :=
    Prod.ext rfl c1
  rw [hpair]
  rfl

open CliModel in
/-- C1 witness: a not-found dispatcher response does not terminate the
run: the loop recurses into the next turn, and the error line is on
standard error. -/
theorem claim_C1_witness :
    runLoop envNotFound (1 + 1) [] 0 {} =
      runLoop envNotFound 1 [{ role := "user", parts := [] }] 1
        (dispatchCalls envNotFound [⟨none, "ls", none⟩]
          (streamedState envNotFound 1 [] {}) []).1 ∧
    ∃ mid1 mid2,
      (dispatchCalls envNotFound [⟨none, "ls", none⟩]
          (streamedState envNotFound 1 [] {}) []).1.stderr =
        [] ++ mid1 ++ ["Error executing tool ls: Tool ls not found in registry"] ++ mid2 := by
  have h := claim_C1 envNotFound 1 [] 0 {} [] ⟨none, "ls", none⟩ []
    ⟨"Tool ls not found in registry"⟩
    (by decide) (fun _ => rfl) rfl (by decide) rfl (by decide)
  exact ⟨h.1, h.2.1⟩

open CliModel in
/-- C8: in a turn with accumulated function calls (all responses
non-fatal), the dispatcher observes them strictly sequentially in
arrival order — the dispatch trace extends by exactly the requests of
the accumulated calls, positionally one-to-one (same names, same
order) — and the synthesized user-role result turn's parts are the
calls' normalized `responseParts` concatenated in that same order. -/
theorem claim_C8 (env : Env) (fuel : Nat) (msgs : List ContentMsg) (tc : Nat)
    (st : RunState)
    (hbudget : ¬(env.maxSessionTurns > 0 ∧ ((tc + 1 : Nat) : Int) > env.maxSessionTurns))
    (hsig : ∀ k, env.sigAborted k = false)
    (hne : collectCalls (env.stream (tc + 1) (msgPartsOf msgs)) ≠ [])
    (hall : ∀ r ∈ requestsOf env (collectCalls (env.stream (tc + 1) (msgPartsOf msgs)))
      st.clockCalls, nonFatalResponse (env.dispatch r) = true) :
    (dispatchCalls env (collectCalls (env.stream (tc + 1) (msgPartsOf msgs)))
        (streamedState env (tc + 1) msgs st) []).1.dispatched =
      st.dispatched ++
        requestsOf env (collectCalls (env.stream (tc + 1) (msgPartsOf msgs))) st.clockCalls ∧
    (requestsOf env (collectCalls (env.stream (tc + 1) (msgPartsOf msgs))) st.clockCalls).map
        ToolCallRequestInfo.name =
      (collectCalls (env.stream (tc + 1) (msgPartsOf msgs))).map FunctionCall.name ∧
    runLoop env (fuel + 1) msgs tc st =
      runLoop env fuel
        [{ role := "user",
           parts := (requestsOf env (collectCalls (env.stream (tc + 1) (msgPartsOf msgs)))
               st.clockCalls).flatMap
             fun r => normalizeResponseParts (env.dispatch r).responseParts }]
        (tc + 1)
        (dispatchCalls env (collectCalls (env.stream (tc + 1) (msgPartsOf msgs)))
          (streamedState env (tc + 1) msgs st) []).1 := by
  have hstream : streamLoop env (env.stream (tc + 1) (msgPartsOf msgs))
      { st with passes := st.passes + 1 } [] =
      (streamedState env (tc + 1) msgs st,
       some (collectCalls (env.stream (tc + 1) (msgPartsOf msgs)))) := by
    have h := streamLoop_no_abort env hsig (env.stream (tc + 1) (msgPartsOf msgs))
      { st with passes := st.passes + 1 } []
    rw [List.nil_append] at h
    exact h
  obtain ⟨c1, c2, -, -, -⟩ := dispatchCalls_eq env
    (collectCalls (env.stream (tc + 1) (msgPartsOf msgs)))
    (streamedState env (tc + 1) msgs st) [] hall
  refine ⟨c2, requestsOf_names env _ st.clockCalls, ?_⟩
  rw [runLoop_step env fuel msgs tc st hbudget, hstream]
  show (if (collectCalls (env.stream (tc + 1) (msgPartsOf msgs))).length > 0
    then _ else _) = _
  rw [if_pos (List.length_pos.mpr hne)]
  have hpair : dispatchCalls env (collectCalls (env.stream (tc + 1) (msgPartsOf msgs)))
      (streamedState env (tc + 1) msgs st) [] =
      ((dispatchCalls env (collectCalls (env.stream (tc + 1) (msgPartsOf msgs)))
          (streamedState env (tc + 1) msgs st) []).1,
       some ([] ++ (requestsOf env (collectCalls (env.stream (tc + 1) (msgPartsOf msgs)))
         (streamedState env (tc + 1) msgs st).clockCalls).flatMap
           fun r => normalizeResponseParts (env.dispatch r).responseParts)) :=
    Prod.ext rfl c1
  rw [hpair]
  rfl

open CliModel in
/-- C8 witness: two calls "a" then "b" in one turn are dispatched in that
order and the synthesized result turn carries their parts in the same
order. -/
theorem claim_C8_witness :
    (dispatchCalls envSeq (collectCalls (envSeq.stream 1 (msgPartsOf [])))
        (streamedState envSeq 1 [] {}) []).1.dispatched =
      [{ callId := "a-0", name := "a", args := [], isClientInitiated := false,
         prompt_id := "p" },
       { callId := "b-1", name := "b", args := [], isClientInitiated := false,
         prompt_id := "p" }] ∧
    runLoop envSeq (1 + 1) [] 0 {} =
      runLoop envSeq 1
        [{ role := "user",
           parts := [{ thought := false, text := some "a" },
                     { thought := false, text := some "b" }] }] 1
        (dispatchCalls envSeq (collectCalls (envSeq.stream 1 (msgPartsOf [])))
          (streamedState envSeq 1 [] {}) []).1 := by
  have h := claim_C8 envSeq 1 [] 0 {} (by decide) (fun _ => rfl) (by decide) (by decide)
  exact ⟨h.1.trans (by rfl), h.2.2⟩

open CliModel in
/-- Helper: with the budget `N`, no cancellation, a client that always
requests at least one call, and an always-succeeding dispatcher, the
loop runs turns `tc+1 … N` (one streaming pass each) and then stops at
the budget check with the budget message as its only standard-error
write. -/
theorem runLoop_budget (env : Env) (N : Nat)
    (hmax : env.maxSessionTurns = (N : Int)) (hN : 0 < N)
    (hsig : ∀ k, env.sigAborted k = false)
    (hcalls : ∀ tcN parts, collectCalls (env.stream tcN parts) ≠ [])
    (hdisp : ∀ r, (env.dispatch r).error = none) :
    ∀ (fuel tc : Nat) (msgs : List ContentMsg) (st : RunState),
      tc ≤ N → N - tc + 1 ≤ fuel →
      (runLoop env fuel msgs tc st).2 = .maxTurnsReached ∧
      (runLoop env fuel msgs tc st).1.passes = st.passes + (N - tc) ∧
      (runLoop env fuel msgs tc st).1.stderr = st.stderr ++ [maxTurnsMessage] := by
  intro fuel
  induction fuel with
  | zero =>
    intro tc msgs st htc hf
    omega
  | succ fuel ih =>
    intro tc msgs st htc hf
    by_cases heq : tc = N
    · subst heq
      have hb : env.maxSessionTurns > 0 ∧ ((tc + 1 : Nat) : Int) > env.maxSessionTurns := by
        rw [hmax]
        constructor
        · exact_mod_cast hN
        · exact_mod_cast Nat.lt_succ_self tc
      rw [runLoop, if_pos hb]
      exact ⟨rfl, by simp, rfl⟩
    · have htc' : tc < N := lt_of_le_of_ne htc heq
      have hbudget : ¬(env.maxSessionTurns > 0 ∧ ((tc + 1 : Nat) : Int) > env.maxSessionTurns) := by
        rw [hmax]
        intro hcontra
        have h2 := hcontra.2
        have : ((tc + 1 : Nat) : Int) ≤ (N : Int) := by exact_mod_cast htc'
        omega
      have hstream : streamLoop env (env.stream (tc + 1) (msgPartsOf msgs))
          { st with passes := st.passes + 1 } [] =
          (streamedState env (tc + 1) msgs st,
           some (collectCalls (env.stream (tc + 1) (msgPartsOf msgs)))) := by
        have h := streamLoop_no_abort env hsig (env.stream (tc + 1) (msgPartsOf msgs))
          { st with passes := st.passes + 1 } []
        rw [List.nil_append] at h
        exact h
      have hall : ∀ r ∈ requestsOf env
          (collectCalls (env.stream (tc + 1) (msgPartsOf msgs)))
          (streamedState env (tc + 1) msgs st).clockCalls,
          nonFatalResponse (env.dispatch r) = true := by
        intro r _
        simp [nonFatalResponse, hdisp r]
      obtain ⟨c1, -, c3, -, -⟩ := dispatchCalls_eq env
        (collectCalls (env.stream (tc + 1) (msgPartsOf msgs)))
        (streamedState env (tc + 1) msgs st) [] hall
      have cerr := dispatchCalls_noError_stderr env
        (collectCalls (env.stream (tc + 1) (msgPartsOf msgs)))
        (streamedState env (tc + 1) msgs st) []
        (fun r _ => hdisp r)
      have hpair : dispatchCalls env (collectCalls (env.stream (tc + 1) (msgPartsOf msgs)))
          (streamedState env (tc + 1) msgs st) [] =
          ((dispatchCalls env (collectCalls (env.stream (tc + 1) (msgPartsOf msgs)))
              (streamedState env (tc + 1) msgs st) []).1,
           some ([] ++ (requestsOf env (collectCalls (env.stream (tc + 1) (msgPartsOf msgs)))
             (streamedState env (tc + 1) msgs st).clockCalls).flatMap
               fun r => normalizeResponseParts (env.dispatch r).responseParts)) :=
        Prod.ext rfl c1
      have hrun : runLoop env (fuel + 1) msgs tc st =
          runLoop env fuel
            [{ role := "user",
               parts := (requestsOf env (collectCalls (env.stream (tc + 1) (msgPartsOf msgs)))
                   (streamedState env (tc + 1) msgs st).clockCalls).flatMap
                 fun r => normalizeResponseParts (env.dispatch r).responseParts }]
            (tc + 1)
            (dispatchCalls env (collectCalls (env.stream (tc + 1) (msgPartsOf msgs)))
              (streamedState env (tc + 1) msgs st) []).1 := by
        rw [runLoop_step env fuel msgs tc st hbudget, hstream]
        show (if (collectCalls (env.stream (tc + 1) (msgPartsOf msgs))).length > 0
          then _ else _) = _
        rw [if_pos (List.length_pos.mpr (hcalls (tc + 1) (msgPartsOf msgs)))]
        rw [hpair]
        rfl
      rw [hrun]
      obtain ⟨ih1, ih2, ih3⟩ := ih (tc + 1) _ _ (by omega) (by omega)
      refine ⟨ih1, ?_, ?_⟩
      · rw [ih2, c3]
        show (streamedState env (tc + 1) msgs st).passes + (N - (tc + 1)) = _
        simp only [streamedState]
        omega
      · rw [ih3, cerr]
        rfl

open CliModel in
/-- C3: with `getMaxSessionTurns() = N > 0`, a model client that
requests at least one tool call on every turn, no cancellation, and an
always-succeeding dispatcher, the run performs exactly `N` streaming
passes and then stops as a terminal, non-error state: the budget
message is the only standard-error write and the function returns
normally (the `maxTurnsReached` outcome), with no further model
request. -/
theorem claim_C3 (env : Env) (N : Nat) (input : String) (fuel : Nat)
    (hmax : env.maxSessionTurns = (N : Int)) (hN : 0 < N)
    (hsig : ∀ k, env.sigAborted k = false)
    (hcalls : ∀ tcN parts, collectCalls (env.stream tcN parts) ≠ [])
    (hdisp : ∀ r, (env.dispatch r).error = none)
    (hfuel : N + 1 ≤ fuel) :
    (runNonInteractive env input fuel).2 = .maxTurnsReached ∧
    (runNonInteractive env input fuel).1.passes = N ∧
    (runNonInteractive env input fuel).1.stderr = [maxTurnsMessage] := by
  obtain ⟨h1, h2, h3⟩ := runLoop_budget env N hmax hN hsig hcalls hdisp fuel 0
    [{ role := "user", parts := [{ thought := false, text := some input }] }] {}
    (Nat.zero_le N) (by omega)
  refine ⟨h1, ?_, ?_⟩
  · rw [show (runNonInteractive env input fuel).1.passes =
      (runLoop env fuel
        [{ role := "user", parts := [{ thought := false, text := some input }] }] 0 {}).1.passes
      from rfl, h2]
    show 0 + (N - 0) = N
    omega
  · rw [show (runNonInteractive env input fuel).1.stderr =
      (runLoop env fuel
        [{ role := "user", parts := [{ thought := false, text := some input }] }] 0 {}).1.stderr
      from rfl, h3]
    rfl

open CliModel in
/-- C3 witness: with `maxSessionTurns = 2` and a scripted client that
always requests a call, the run makes exactly 2 passes and stops with
the budget message. -/
theorem claim_C3_witness :
    (runNonInteractive envBudget "go" 3).2 = .maxTurnsReached ∧
    (runNonInteractive envBudget "go" 3).1.passes = 2 ∧
    (runNonInteractive envBudget "go" 3).1.stderr = [maxTurnsMessage] :=
  claim_C3 envBudget 2 "go" 3 rfl (by decide) (fun _ => rfl)
    (fun tcN parts => by
      show collectCalls [chunkCall "ls"] ≠ []
      decide)
    (fun r => rfl) (by omega)
